import Mathlib

/-!
Verification of the synthetic market-data engine: a shallow embedding of
the ClusterEngine numeric core, the per-symbol candle generator and the
stream hub's tick/subscription logic, with theorems about the documented
properties.  Machine floats are modelled as exact rationals and the
pseudo-random source as an explicit stream of draws in the unit interval.
-/

namespace MarketSim

/-- Volume-at-price bucket inside one candle. -/
structure Cluster where
  price : ℚ
  volume : ℚ
  buyVolume : ℚ
  sellVolume : ℚ
  delta : ℚ
  aggression : ℚ
deriving Repr, DecidableEq

/-- OHLCV candle with its per-price-level cluster breakdown. -/
structure CandleData where
  time : ℤ
  open_ : ℚ
  high : ℚ
  low : ℚ
  close : ℚ
  volume : ℚ
  buyVolume : ℚ
  sellVolume : ℚ
  delta : ℚ
  clusters : List Cluster
deriving Repr, DecidableEq

/-- Single price level of an order book side. -/
structure OrderBookLevel where
  price : ℚ
  volume : ℚ
deriving Repr, DecidableEq

/-- Order book snapshot. -/
structure OrderBookData where
  bids : List OrderBookLevel
  asks : List OrderBookLevel
  lastUpdate : ℤ
deriving Repr, DecidableEq

/-- Mutable caches of the ClusterEngine. -/
structure EngineState where
  atrCache : String → Option ℚ
  lastProcessedPrice : String → Option ℚ

/-- Threshold of the significance gate (0.05 percent). -/
def PRICE_CHANGE_THRESHOLD : ℚ := 0.0005

/-- True range of one consecutive candle pair. -/
def trueRange (previous current : CandleData) : ℚ :=
  max (current.high - current.low)
    (max |current.high - previous.close| |current.low - previous.close|)

/-- ClusterEngine.calculateATR: average true range over the pairs
(candles[i-1], candles[i]) for i from 1 below min(length, period+1);
0.001 when fewer than two candles are given. -/
def calculateATR (candles : List CandleData) (period : ℕ) : ℚ :=
  if candles.length < 2 then 0.001
  else
    let trueRanges :=
      ((candles.zip candles.tail).take (min candles.length (period + 1) - 1)).map
        (fun pc => trueRange pc.1 pc.2)
    trueRanges.sum / (trueRanges.length : ℚ)

/-- Record a last processed price in the engine cache. -/
def setLastPrice (st : EngineState) (symbol : String) (price : ℚ) : EngineState :=
  { st with lastProcessedPrice :=
      fun s => if s = symbol then some price else st.lastProcessedPrice s }

/-- ClusterEngine.shouldRefreshClusters: the smart-refresh significance gate.
The JavaScript test if (!lastPrice) is falsy both for an absent entry and for
a recorded price of zero. -/
def shouldRefreshClusters (st : EngineState) (symbol : String) (currentPrice : ℚ) :
    Bool × EngineState :=
  match st.lastProcessedPrice symbol with
  | none => (true, setLastPrice st symbol currentPrice)
  | some lastPrice =>
    if lastPrice = 0 then (true, setLastPrice st symbol currentPrice)
    else
      if |currentPrice - lastPrice| / lastPrice > PRICE_CHANGE_THRESHOLD then
        (true, setLastPrice st symbol currentPrice)
      else (false, st)

/-- Descending-volume order used for a candle's cluster list. -/
def clusterVolumeGE (a b : Cluster) : Prop := b.volume ≤ a.volume

instance : DecidableRel clusterVolumeGE := fun a b => by
  unfold clusterVolumeGE; infer_instance

/-- Loop body of ClusterEngine.generateAdaptiveClusters for cluster index i,
with rv the Math.random draw of the volume multiplier and rb the draw of the
buy ratio. -/
def adaptiveCluster (low high totalVolume totalBuyVolume currentPrice : ℚ)
    (n : ℕ) (i : ℕ) (rv rb : ℚ) : Cluster :=
  let priceRange := high - low
  let step := priceRange / (n : ℚ)
  let price := low + (step * i) + (step / 2)
  let distanceFromCurrent := |price - currentPrice|
  let distanceFromMiddle := |price - (high + low) / 2|
  let currentPriceWeight := 1 / (1 + distanceFromCurrent / currentPrice)
  let middleWeight := 1 - (distanceFromMiddle / (priceRange / 2))
  let importance := currentPriceWeight * 0.6 + middleWeight * 0.4
  let volumeMultiplier := importance * (0.7 + rv * 0.6)
  let volume := (totalVolume / (n : ℚ)) * volumeMultiplier
  let baseRatio := totalBuyVolume / totalVolume
  let pricePosition := (price - low) / priceRange
  let positionBias :=
    if pricePosition < 0.5 then (1 - pricePosition) * 0.2 else -pricePosition * 0.2
  let buyRatio := max 0.1 (min 0.9 (baseRatio + positionBias + (rb - 0.5) * 0.1))
  let buyVolume := volume * buyRatio
  let sellVolume := volume - buyVolume
  let delta := buyVolume - sellVolume
  let aggression := if volume > 0 then |delta| / volume else 0
  { price := price, volume := volume, buyVolume := buyVolume,
    sellVolume := sellVolume, delta := delta, aggression := aggression }

/-- ClusterEngine.generateAdaptiveClusters.  The random stream r supplies
Math.random draws; draw k + 2*i feeds cluster i's volume multiplier and draw
k + 2*i + 1 its buy ratio.  Returns the sorted cluster list together with the
next unused random index. -/
def generateAdaptiveClusters (low high totalVolume totalBuyVolume totalSellVolume
    atr currentPrice : ℚ) (r : ℕ → ℚ) (k : ℕ) : List Cluster × ℕ :=
  let baseClusterSize := atr * 0.5
  let priceRange := high - low
  let optimalClusters : ℤ := max 5 (min 25 ⌊priceRange / baseClusterSize⌋)
  let n : ℕ := optimalClusters.toNat
  let clusters := (List.range n).map (fun (i : ℕ) =>
    adaptiveCluster low high totalVolume totalBuyVolume currentPrice n i
      (r (k + 2 * i)) (r (k + 2 * i + 1)))
  (clusters.insertionSort clusterVolumeGE, k + 2 * n)

/-- ClusterEngine.generateEnhancedCandle: synthesizes one candle from a start
price and the historical context, consuming seven random draws followed by the
draws of generateAdaptiveClusters. -/
def generateEnhancedCandle (time : ℤ) (startPrice : ℚ) (interval : String)
    (historicalCandles : List CandleData) (r : ℕ → ℚ) (k : ℕ) : CandleData × ℕ :=
  let atr := calculateATR historicalCandles 14
  let volatility := max 0.005 (atr / startPrice * 2)
  let trend := (r k - 0.5) * 0.005
  let openPrice := startPrice
  let priceChange := startPrice * (trend + (r (k + 1) - 0.5) * volatility)
  let closePrice := max (openPrice + priceChange) 1
  let atrMultiplier := 0.5 + r (k + 2)
  let wickRange := atr * atrMultiplier
  let high := max openPrice closePrice + r (k + 3) * wickRange
  let low := min openPrice closePrice - r (k + 4) * wickRange
  let baseVolume := 50 + r (k + 5) * 150
  let volatilityMultiplier := 1 + |priceChange / startPrice| * 20
  let volume := baseVolume * volatilityMultiplier
  let isGreen := closePrice > openPrice
  let buyRatio := if isGreen then 0.55 + r (k + 6) * 0.25 else 0.25 + r (k + 6) * 0.3
  let buyVolume := volume * buyRatio
  let sellVolume := volume - buyVolume
  let delta := buyVolume - sellVolume
  let res := generateAdaptiveClusters low high volume buyVolume sellVolume atr
    closePrice r (k + 7)
  ({ time := time, open_ := openPrice, high := high, low := low, close := closePrice,
     volume := volume, buyVolume := buyVolume, sellVolume := sellVolume,
     delta := delta, clusters := res.1 }, res.2)

/-- Descending-price order used for the bid side. -/
def priceGE (a b : OrderBookLevel) : Prop := b.price ≤ a.price

/-- Ascending-price order used for the ask side. -/
def priceLE (a b : OrderBookLevel) : Prop := a.price ≤ b.price

instance : DecidableRel priceGE := fun a b => by unfold priceGE; infer_instance

instance : DecidableRel priceLE := fun a b => by unfold priceLE; infer_instance

/-- ClusterEngine.filterDepth with an explicit rangePercent argument. -/
def filterDepth (orderBook : OrderBookData) (centerPrice rangePercent : ℚ) :
    OrderBookData :=
  let minPrice := centerPrice * (1 - rangePercent / 100)
  let maxPrice := centerPrice * (1 + rangePercent / 100)
  let filteredBids :=
    (((orderBook.bids.filter (fun level =>
        decide (minPrice ≤ level.price) && decide (level.price ≤ centerPrice))).insertionSort
      priceGE).take 50)
  let filteredAsks :=
    (((orderBook.asks.filter (fun level =>
        decide (level.price ≤ maxPrice) && decide (centerPrice ≤ level.price))).insertionSort
      priceLE).take 50)
  { bids := filteredBids, asks := filteredAsks, lastUpdate := orderBook.lastUpdate }

/-- ClusterEngine.filterDepth as called with the rangePercent argument omitted:
the declared default value of the parameter is 2. -/
def filterDepthDefault (orderBook : OrderBookData) (centerPrice : ℚ) : OrderBookData :=
  filterDepth orderBook centerPrice 2

/-- One bucket of the volume profile. -/
structure ProfileLevel where
  price : ℚ
  volume : ℚ
  buyVolume : ℚ
  sellVolume : ℚ
deriving Repr, DecidableEq

/-- Accumulate one cluster into a profile bucket. -/
def addClusterTo (cluster : Cluster) (level : ProfileLevel) : ProfileLevel :=
  { level with
    volume := level.volume + cluster.volume
    buyVolume := level.buyVolume + cluster.buyVolume
    sellVolume := level.sellVolume + cluster.sellVolume }

/-- Apply f to the element at position n, leaving the list unchanged when n is
out of range. -/
def updAt (f : ProfileLevel → ProfileLevel) : ℕ → List ProfileLevel → List ProfileLevel
  | _, [] => []
  | 0, x :: xs => f x :: xs
  | n + 1, x :: xs => x :: updAt f n xs

/-- Bucket index a cluster price falls in. -/
def levelIndex (minPrice priceStep price : ℚ) : ℤ :=
  ⌊(price - minPrice) / priceStep⌋

/-- Minimum low over a nonempty candle list, Math.min over the mapped lows. -/
def vpMinPrice (c : CandleData) (rest : List CandleData) : ℚ :=
  (rest.map (·.low)).foldl min c.low

/-- Maximum high over a nonempty candle list, Math.max over the mapped highs. -/
def vpMaxPrice (c : CandleData) (rest : List CandleData) : ℚ :=
  (rest.map (·.high)).foldl max c.high

/-- Bucket width of the volume profile. -/
def vpStep (c : CandleData) (rest : List CandleData) (priceLevels : ℕ) : ℚ :=
  (vpMaxPrice c rest - vpMinPrice c rest) / (priceLevels : ℚ)

/-- One accumulation step of generateVolumeProfile: a cluster lands in the
bucket its price falls in when that index is within range, and is ignored
otherwise. -/
def vpAccum (minPrice priceStep : ℚ) (priceLevels : ℕ)
    (prof : List ProfileLevel) (cluster : Cluster) : List ProfileLevel :=
  let idx := levelIndex minPrice priceStep cluster.price
  if 0 ≤ idx ∧ idx < (priceLevels : ℤ) then
    updAt (addClusterTo cluster) idx.toNat prof
  else prof

/-- ClusterEngine.generateVolumeProfile: histogram of the clusters of all
input candles over priceLevels equal buckets spanning the candles' full
low..high range; buckets left with zero volume are dropped. -/
def generateVolumeProfile (candles : List CandleData) (priceLevels : ℕ) :
    List ProfileLevel :=
  match candles with
  | [] => []
  | c :: rest =>
    let minPrice := vpMinPrice c rest
    let priceStep := vpStep c rest priceLevels
    let initProfile := (List.range priceLevels).map (fun (i : ℕ) =>
      ({ price := minPrice + (priceStep * i) + (priceStep / 2), volume := 0,
         buyVolume := 0, sellVolume := 0 } : ProfileLevel))
    let allClusters := ((c :: rest).map (·.clusters)).flatten
    let profile := allClusters.foldl (vpAccum minPrice priceStep priceLevels) initProfile
    profile.filter (fun level => decide (level.volume > 0))

/-- ClusterEngine.updateATRCache. -/
def updateATRCache (st : EngineState) (symbol : String) (candles : List CandleData) :
    EngineState :=
  let atr := calculateATR candles 14
  { st with atrCache := fun s => if s = symbol then some atr else st.atrCache s }

/-- Mutable state of one TestDataGenerator together with its ClusterEngine. -/
structure GenState where
  currentPrice : ℚ
  currentTime : ℤ
  priceHistory : List ℚ
  historicalCandles : List CandleData
  engine : EngineState

/-- TestDataGenerator.updateCurrentPrice: record a price in the rolling history
(capacity 1000, oldest dropped). -/
def updateCurrentPrice (st : GenState) (newPrice : ℚ) : GenState :=
  let hist := st.priceHistory ++ [newPrice]
  { st with
    currentPrice := newPrice
    priceHistory := if 1000 < hist.length then hist.tail else hist }

/-- TestDataGenerator.simulatePriceMovement: one mean-reversion plus
random-walk price step, floored at 1, consuming one random draw.  Returns the
new price, the updated state and the next random index. -/
def simulatePriceMovement (st : GenState) (r : ℕ → ℚ) (k : ℕ) : ℚ × GenState × ℕ :=
  let volatility : ℚ := 0.001
  let meanReversion : ℚ := 0.1
  let lastTwenty := st.priceHistory.drop (st.priceHistory.length - 20)
  let recentAverage := lastTwenty.sum / 20
  let meanReversionForce := (recentAverage - st.currentPrice) / st.currentPrice * meanReversion
  let randomWalk := (r k - 0.5) * volatility
  let priceChange := meanReversionForce + randomWalk
  let newPrice := max (st.currentPrice * (1 + priceChange)) 1
  (newPrice, updateCurrentPrice st newPrice, k + 1)

/-- TestDataGenerator.generateSingleCandle: delegate synthesis to the engine
and append the candle to the rolling window (capacity 100, oldest dropped). -/
def generateSingleCandle (st : GenState) (time : ℤ) (startPrice : ℚ)
    (interval : String) (r : ℕ → ℚ) (k : ℕ) : CandleData × GenState × ℕ :=
  let res := generateEnhancedCandle time startPrice interval st.historicalCandles r k
  let hist := st.historicalCandles ++ [res.1]
  (res.1,
   { st with historicalCandles := if 100 < hist.length then hist.tail else hist },
   res.2)

/-- TestDataGenerator.generateRealtimeUpdate: advance the price, ask the
significance gate, and only on acceptance synthesize a candle and refresh the
ATR cache entry of the symbol. -/
def generateRealtimeUpdate (st : GenState) (interval : String) (r : ℕ → ℚ)
    (k : ℕ) : Option CandleData × GenState × ℕ :=
  let sim := simulatePriceMovement st r k
  let newPrice := sim.1
  let gate := shouldRefreshClusters sim.2.1.engine "BTCUSDT" newPrice
  let st2 : GenState := { sim.2.1 with engine := gate.2 }
  if gate.1 then
    let gen := generateSingleCandle st2 st2.currentTime newPrice interval r sim.2.2
    let st3 : GenState :=
      { gen.2.1 with
        engine := updateATRCache gen.2.1.engine "BTCUSDT" gen.2.1.historicalCandles }
    (some gen.1, st3, gen.2.2)
  else (none, st2, sim.2.2)

/-- JavaScript parseInt on a decimal string: skip leading whitespace, optional
sign, then a leading digit run; no digits means NaN, modelled as none. -/
def parseIntJS (s : String) : Option ℤ :=
  let cs := s.data.dropWhile (·.isWhitespace)
  let signed : ℤ × List Char :=
    match cs with
    | '-' :: t => (-1, t)
    | '+' :: t => (1, t)
    | _ => (1, cs)
  let ds := signed.2.takeWhile (·.isDigit)
  if ds.isEmpty then none
  else some (signed.1 * (ds.foldl (fun acc c => acc * 10 + (c.toNat - '0'.toNat)) 0 : ℕ))

/-- TestDataGenerator.getIntervalInSeconds: number of seconds one interval
string denotes; unknown unit letters default to 60 seconds.  When a
recognized unit letter has no leading integer, parseInt is NaN and so is the
multiplied second count: none encodes that NaN value, and the backfill
arithmetic below propagates it exactly as IEEE NaN propagates. -/
def getIntervalInSeconds (interval : String) : Option ℤ :=
  let value := parseIntJS interval
  match interval.data.getLast? with
  | some 's' => value
  | some 'm' => value.map (· * 60)
  | some 'h' => value.map (· * 3600)
  | some 'd' => value.map (· * 86400)
  | some 'w' => value.map (· * 604800)
  | some 'M' => value.map (· * 2629746)
  | _ => some 60

/-- JavaScript product count * s of the backfill offset: NaN (none) absorbs,
also at count 0, since 0 * NaN is NaN. -/
def jsMulCount (count : ℕ) : Option ℤ → Option ℤ
  | some s => some (count * s)
  | none => none

/-- JavaScript difference a - b with a possibly-NaN right operand. -/
def jsSub (a : ℤ) : Option ℤ → Option ℤ
  | some b => some (a - b)
  | none => none

/-- JavaScript sum time + s on possibly-NaN operands. -/
def jsAddStep : Option ℤ → Option ℤ → Option ℤ
  | some a, some b => some (a + b)
  | _, _ => none

/-- Accumulator of the backfill loop: each produced candle paired with the
time value the source writes into it (none is the JavaScript NaN, which the
integer time field of CandleData cannot carry), the possibly-NaN time
cursor, the price cursor, the generator state and the next random index. -/
structure BackfillAcc where
  candles : List (Option ℤ × CandleData)
  time : Option ℤ
  price : ℚ
  st : GenState
  k : ℕ

/-- One iteration of the backfill loop of generateHistoricalCandles.  The
candle is synthesized exactly as in the source; no candle field other than
the copied time reads the time argument, so when the cursor is NaN the
placeholder 0 passed in affects only that dead integer field, and the true
(NaN) time the source stores is kept alongside in the pair. -/
def backfillStep (interval : String) (s : Option ℤ) (r : ℕ → ℚ) (acc : BackfillAcc) :
    BackfillAcc :=
  let gen := generateSingleCandle acc.st (acc.time.getD 0) acc.price interval r acc.k
  { candles := acc.candles ++ [(acc.time, gen.1)], time := jsAddStep acc.time s,
    price := gen.1.close, st := gen.2.1, k := gen.2.2 }

/-- State of the generator after a backfill call, with the time cursor in
JavaScript number semantics: none is the NaN that an unparsable interval
string leaves behind in this.currentTime. -/
structure BackfillResult where
  candles : List (Option ℤ × CandleData)
  currentPrice : ℚ
  currentTime : Option ℤ
  priceHistory : List ℚ
  historicalCandles : List CandleData
  engine : EngineState
  k : ℕ

/-- TestDataGenerator.generateHistoricalCandles: seed the price within five
percent of the current price, walk count interval steps into the past and
forward again, then move the cursor to the loop's final time and price.  The
function always returns normally; an interval string whose recognized unit
letter has no leading integer makes the step NaN, which poisons the starting
offset, every candle time and the stored currentTime. -/
def generateHistoricalCandles (st : GenState) (count : ℕ) (interval : String)
    (r : ℕ → ℚ) (k : ℕ) : BackfillResult :=
  let s := getIntervalInSeconds interval
  let time0 := jsSub st.currentTime (jsMulCount count s)
  let price0 := st.currentPrice * (0.95 + r k * 0.1)
  let init : BackfillAcc :=
    { candles := [], time := time0, price := price0, st := st, k := k + 1 }
  let result := (List.range count).foldl (fun acc _ => backfillStep interval s r acc) init
  { candles := result.candles
    currentPrice := result.price
    currentTime := result.time
    priceHistory := result.st.priceHistory
    historicalCandles := result.st.historicalCandles
    engine := result.st.engine
    k := result.k }

/-- Outbound frame types the update loop can broadcast to subscribers. -/
inductive Frame where
  | candleUpdate (symbol interval : String) (data : CandleData)
  | orderbookUpdate (symbol : String) (data : OrderBookData)
deriving Repr, DecidableEq

/-- Observable outcome of one scheduled tick: the frames broadcast to the
key's subscribers, the number of storage errors logged on the server, and the
number of error frames sent to clients. -/
structure TickResult where
  frames : List Frame
  storageErrorsLogged : ℕ
  errorFramesSent : ℕ
deriving Repr, DecidableEq

/-- Body of the update-loop callback of TradingDataManager.startDataStream.
The persistence adapter is external; per its contract each write either
succeeds or fails with a StorageError, injected here as the two failure
flags.  A failing await inside the try block jumps to the catch block, which
only logs; the catch block sends nothing to any client. -/
def tickUpdate (symbol interval : String) (subscribed : Bool)
    (candleUpdate : Option CandleData) (orderBookData : OrderBookData)
    (saveCandleFails saveOrderBookFails : Bool) : TickResult :=
  if subscribed = false then { frames := [], storageErrorsLogged := 0, errorFramesSent := 0 }
  else
    match candleUpdate with
    | none => { frames := [], storageErrorsLogged := 0, errorFramesSent := 0 }
    | some c =>
      if saveCandleFails then
        { frames := [], storageErrorsLogged := 1, errorFramesSent := 0 }
      else if saveOrderBookFails then
        { frames := [], storageErrorsLogged := 1, errorFramesSent := 0 }
      else
        { frames := [Frame.candleUpdate symbol interval c,
                     Frame.orderbookUpdate symbol orderBookData]
          storageErrorsLogged := 0
          errorFramesSent := 0 }

/-- Connection handle. -/
abbrev Conn := ℕ

/-- JavaScript Map.set: replace the entry in place, or append a new one. -/
def setAssoc {α : Type} (l : List (String × α)) (key : String) (v : α) :
    List (String × α) :=
  if (l.lookup key).isSome then
    l.map (fun p => if p.1 = key then (key, v) else p)
  else l ++ [(key, v)]

/-- JavaScript Map.delete. -/
def delAssoc {α : Type} (l : List (String × α)) (key : String) :
    List (String × α) :=
  l.filter (fun p => decide (p.1 ≠ key))

/-- State of the TradingDataManager relevant to subscription lifecycle:
the registry, the key-to-timer-handle map, the set of timers currently
scheduled in the runtime (pair of serving key and handle), and a fresh-handle
counter standing for the runtime's timer-id allocator. -/
structure HubState where
  subscriptions : List (String × List Conn)
  updateIntervals : List (String × ℕ)
  activeTimers : List (String × ℕ)
  nextTimer : ℕ
deriving Repr, DecidableEq

/-- TradingDataManager.startDataStream, lifecycle part: schedule one recurring
timer for the key and record its handle in updateIntervals. -/
def startDataStream (key : String) (st : HubState) : HubState :=
  { st with
    activeTimers := st.activeTimers ++ [(key, st.nextTimer)]
    updateIntervals := setAssoc st.updateIntervals key st.nextTimer
    nextTimer := st.nextTimer + 1 }

/-- TradingDataManager.stopDataStream: drop the key's registry entry, clear
the recorded timer via its handle, and forget the handle. -/
def stopDataStream (key : String) (st : HubState) : HubState :=
  let st1 := { st with subscriptions := delAssoc st.subscriptions key }
  match st.updateIntervals.lookup key with
  | some timerId =>
    { st1 with
      activeTimers := st1.activeTimers.filter (fun t => decide (t.2 ≠ timerId))
      updateIntervals := delAssoc st1.updateIntervals key }
  | none => st1

/-- TradingDataManager.subscribeToSymbol: idempotent add of the connection to
the key's set; when the set then has exactly one member, start the stream. -/
def subscribeToSymbol (symbol interval : String) (ws : Conn) (st : HubState) :
    HubState :=
  let key := symbol ++ "_" ++ interval
  let st1 :=
    if (st.subscriptions.lookup key).isSome then st
    else { st with subscriptions := st.subscriptions ++ [(key, [])] }
  let clients := (st1.subscriptions.lookup key).getD []
  let clients' := if ws ∈ clients then clients else clients ++ [ws]
  let st2 := { st1 with subscriptions := setAssoc st1.subscriptions key clients' }
  if clients'.length = 1 then startDataStream key st2 else st2

/-- One step of the forEach in TradingDataManager.removeConnection, handling
the registry entry named key. -/
def removeConnStep (ws : Conn) (st : HubState) (key : String) : HubState :=
  match st.subscriptions.lookup key with
  | none => st
  | some clients =>
    let clients' := clients.erase ws
    let st1 := { st with subscriptions := setAssoc st.subscriptions key clients' }
    if clients'.length = 0 then stopDataStream key st1 else st1

/-- TradingDataManager.removeConnection, subscription part: detach the
connection from every registry entry, stopping the stream of every key whose
set becomes empty. -/
def removeConnection (ws : Conn) (st : HubState) : HubState :=
  (st.subscriptions.map (·.1)).foldl (removeConnStep ws) st

/-- Timers currently scheduled for a given key. -/
def timersFor (st : HubState) (key : String) : List (String × ℕ) :=
  st.activeTimers.filter (fun t => decide (t.1 = key))

/-! Theorems -/

theorem trueRange_nonneg (previous current : CandleData) :
    0 ≤ trueRange previous current :=
  le_trans (abs_nonneg _) (le_trans (le_max_left _ _) (le_max_right _ _))

theorem calculateATR_nonneg (candles : List CandleData) (period : ℕ) :
    0 ≤ calculateATR candles period := by
  unfold calculateATR
  split
  · norm_num
  · refine div_nonneg (List.sum_nonneg ?_) (Nat.cast_nonneg _)
    intro x hx
    simp only [List.mem_map] at hx
    obtain ⟨pc, -, rfl⟩ := hx
    exact trueRange_nonneg _ _

/-- C2: the significance gate accepts and records the first price seen for a
symbol; with a positive recorded price P, a new price within 0.05 percent
relative change is rejected with the cache untouched, and one beyond it is
accepted with the cache updated. -/
theorem significance_gate_correct :
    (∀ (st : EngineState) (symbol : String) (p : ℚ),
       st.lastProcessedPrice symbol = none →
       (shouldRefreshClusters st symbol p).1 = true ∧
       ((shouldRefreshClusters st symbol p).2).lastProcessedPrice symbol = some p) ∧
    (∀ (st : EngineState) (symbol : String) (P P' : ℚ),
       st.lastProcessedPrice symbol = some P → 0 < P →
       (|P' - P| / P ≤ 0.0005 →
          (shouldRefreshClusters st symbol P').1 = false ∧
          (shouldRefreshClusters st symbol P').2 = st) ∧
       (0.0005 < |P' - P| / P →
          (shouldRefreshClusters st symbol P').1 = true ∧
          ((shouldRefreshClusters st symbol P').2).lastProcessedPrice symbol = some P')) := by
  constructor
  · intro st symbol p h
    simp [shouldRefreshClusters, h, setLastPrice]
  · intro st symbol P P' h hP
    have hne : P ≠ 0 := ne_of_gt hP
    constructor
    · intro hle
      have : ¬ (|P' - P| / P > PRICE_CHANGE_THRESHOLD) := by
        simp only [PRICE_CHANGE_THRESHOLD]; exact not_lt.mpr hle
      simp [shouldRefreshClusters, h, hne, this]
    · intro hgt
      have : |P' - P| / P > PRICE_CHANGE_THRESHOLD := by
        simpa [PRICE_CHANGE_THRESHOLD] using hgt
      simp [shouldRefreshClusters, h, hne, this, setLastPrice]

theorem significance_gate_correct_witness :
    ((shouldRefreshClusters ⟨fun _ => none, fun _ => none⟩ "BTCUSDT" 100).1 = true ∧
     ((shouldRefreshClusters ⟨fun _ => none, fun _ => none⟩ "BTCUSDT"
         100).2).lastProcessedPrice "BTCUSDT" = some 100) ∧
    ((shouldRefreshClusters ⟨fun _ => none, fun _ => some 100⟩ "BTCUSDT" 100.04).1 = false ∧
     (shouldRefreshClusters ⟨fun _ => none, fun _ => some 100⟩ "BTCUSDT" 100.04).2 =
       ⟨fun _ => none, fun _ => some 100⟩) ∧
    ((shouldRefreshClusters ⟨fun _ => none, fun _ => some 100⟩ "BTCUSDT" 101).1 = true ∧
     ((shouldRefreshClusters ⟨fun _ => none, fun _ => some 100⟩ "BTCUSDT"
         101).2).lastProcessedPrice "BTCUSDT" = some 101) :=
  ⟨significance_gate_correct.1 ⟨fun _ => none, fun _ => none⟩ "BTCUSDT" 100 rfl,
   (significance_gate_correct.2 ⟨fun _ => none, fun _ => some 100⟩ "BTCUSDT" 100 100.04
      rfl (by norm_num)).1 (by rw [show |(100.04 : ℚ) - 100| = 0.04 by norm_num]; norm_num),
   (significance_gate_correct.2 ⟨fun _ => none, fun _ => some 100⟩ "BTCUSDT" 100 101
      rfl (by norm_num)).2 (by rw [show |(101 : ℚ) - 100| = 1 by norm_num]; norm_num)⟩

/-- C3: every candle of the synthesizer has its wicks outside the body, a
close of at least 1, and exactly consistent volume and delta fields. -/
theorem generateEnhancedCandle_invariants (time : ℤ) (startPrice : ℚ)
    (interval : String) (historicalCandles : List CandleData) (r : ℕ → ℚ) (k : ℕ)
    (hp : 0 < startPrice) (hr : ∀ i, 0 ≤ r i ∧ r i < 1) :
    ((generateEnhancedCandle time startPrice interval historicalCandles r k).1).low ≤
      min ((generateEnhancedCandle time startPrice interval historicalCandles r k).1).open_
        ((generateEnhancedCandle time startPrice interval historicalCandles r k).1).close ∧
    max ((generateEnhancedCandle time startPrice interval historicalCandles r k).1).open_
        ((generateEnhancedCandle time startPrice interval historicalCandles r k).1).close ≤
      ((generateEnhancedCandle time startPrice interval historicalCandles r k).1).high ∧
    1 ≤ ((generateEnhancedCandle time startPrice interval historicalCandles r k).1).close ∧
    ((generateEnhancedCandle time startPrice interval historicalCandles r k).1).volume =
      ((generateEnhancedCandle time startPrice interval historicalCandles r k).1).buyVolume +
      ((generateEnhancedCandle time startPrice interval historicalCandles r k).1).sellVolume ∧
    ((generateEnhancedCandle time startPrice interval historicalCandles r k).1).delta =
      ((generateEnhancedCandle time startPrice interval historicalCandles r k).1).buyVolume -
      ((generateEnhancedCandle time startPrice interval historicalCandles r k).1).sellVolume := by
  have hatr : (0 : ℚ) ≤ calculateATR historicalCandles 14 := calculateATR_nonneg _ _
  have hwick : (0 : ℚ) ≤ calculateATR historicalCandles 14 * (0.5 + r (k + 2)) :=
    mul_nonneg hatr (by linarith [(hr (k + 2)).1])
  dsimp only [generateEnhancedCandle]
  refine ⟨?_, ?_, ?_, ?_, ?_⟩
  · exact sub_le_self _ (mul_nonneg (hr (k + 4)).1 hwick)
  · exact le_add_of_nonneg_right (mul_nonneg (hr (k + 3)).1 hwick)
  · exact le_max_right _ _
  · ring
  · ring

theorem generateEnhancedCandle_invariants_witness :
    (0 : ℚ) < 100 ∧
    ((generateEnhancedCandle 0 100 "1m" [] (fun _ => 0.5) 0).1).low ≤
      min ((generateEnhancedCandle 0 100 "1m" [] (fun _ => 0.5) 0).1).open_
        ((generateEnhancedCandle 0 100 "1m" [] (fun _ => 0.5) 0).1).close ∧
    1 ≤ ((generateEnhancedCandle 0 100 "1m" [] (fun _ => 0.5) 0).1).close := by
  have h := generateEnhancedCandle_invariants 0 100 "1m" [] (fun _ => 0.5) 0
    (by norm_num) (fun i => by norm_num)
  exact ⟨by norm_num, h.1, h.2.2.1⟩

theorem adaptiveCluster_volume_le (low high totalVolume totalBuyVolume currentPrice : ℚ)
    (n i : ℕ) (rv rb : ℚ) (hlh : low < high) (hV : 0 ≤ totalVolume)
    (hcp : 0 < currentPrice) (hrv0 : 0 ≤ rv) (hrv1 : rv < 1) :
    (adaptiveCluster low high totalVolume totalBuyVolume currentPrice n i rv rb).volume ≤
      1.3 * totalVolume / (n : ℚ) := by
  dsimp only [adaptiveCluster]
  have hrange : (0 : ℚ) < high - low := by linarith
  have hd1 : (0 : ℚ) ≤ |low + (high - low) / (n : ℚ) * (i : ℚ) +
      (high - low) / (n : ℚ) / 2 - currentPrice| / currentPrice :=
    div_nonneg (abs_nonneg _) hcp.le
  have hcpw : 1 / (1 + |low + (high - low) / (n : ℚ) * (i : ℚ) +
      (high - low) / (n : ℚ) / 2 - currentPrice| / currentPrice) ≤ 1 := by
    rw [div_le_one (by linarith)]
    linarith
  have hmw : 1 - |low + (high - low) / (n : ℚ) * (i : ℚ) +
      (high - low) / (n : ℚ) / 2 - (high + low) / 2| / ((high - low) / 2) ≤ 1 :=
    sub_le_self _ (div_nonneg (abs_nonneg _) (by linarith))
  have himp : 1 / (1 + |low + (high - low) / (n : ℚ) * (i : ℚ) +
        (high - low) / (n : ℚ) / 2 - currentPrice| / currentPrice) * 0.6 +
      (1 - |low + (high - low) / (n : ℚ) * (i : ℚ) +
        (high - low) / (n : ℚ) / 2 - (high + low) / 2| / ((high - low) / 2)) * 0.4 ≤ 1 := by
    nlinarith
  have hm0 : (0 : ℚ) ≤ 0.7 + rv * 0.6 := by nlinarith
  have hm13 : 0.7 + rv * 0.6 ≤ 1.3 := by nlinarith
  have hprod : 1 / (1 + |low + (high - low) / (n : ℚ) * (i : ℚ) +
        (high - low) / (n : ℚ) / 2 - currentPrice| / currentPrice) * 0.6 +
      (1 - |low + (high - low) / (n : ℚ) * (i : ℚ) +
        (high - low) / (n : ℚ) / 2 - (high + low) / 2| / ((high - low) / 2)) * 0.4 ≤ 1 :=
    himp
  have hVn : (0 : ℚ) ≤ totalVolume / (n : ℚ) := div_nonneg hV (Nat.cast_nonneg _)
  calc totalVolume / (n : ℚ) *
      ((1 / (1 + |low + (high - low) / (n : ℚ) * (i : ℚ) +
          (high - low) / (n : ℚ) / 2 - currentPrice| / currentPrice) * 0.6 +
        (1 - |low + (high - low) / (n : ℚ) * (i : ℚ) +
          (high - low) / (n : ℚ) / 2 - (high + low) / 2| / ((high - low) / 2)) * 0.4) *
        (0.7 + rv * 0.6))
      ≤ totalVolume / (n : ℚ) * 1.3 := by
        refine mul_le_mul_of_nonneg_left ?_ hVn
        exact le_trans (mul_le_of_le_one_left hm0 hprod) hm13
    _ = 1.3 * totalVolume / (n : ℚ) := by ring

/-- C4, amended: for valid inputs and unit-interval draws the sum of the
cluster volumes is at most 1.3 times totalVolume; it need not approximate
totalVolume, because each cluster's allocation is additionally scaled by its
importance weight, which is at most 1 but usually well below it. -/
theorem generateAdaptiveClusters_volume_sum_le (low high totalVolume totalBuyVolume
    totalSellVolume atr currentPrice : ℚ) (r : ℕ → ℚ) (k : ℕ)
    (hlh : low < high) (hV : 0 < totalVolume) (hatr : 0 < atr)
    (hcp : 0 < currentPrice) (hr : ∀ i, 0 ≤ r i ∧ r i < 1) :
    (((generateAdaptiveClusters low high totalVolume totalBuyVolume totalSellVolume
        atr currentPrice r k).1).map Cluster.volume).sum ≤ 1.3 * totalVolume := by
  dsimp only [generateAdaptiveClusters]
  rw [((List.perm_insertionSort clusterVolumeGE _).map Cluster.volume).sum_eq,
    List.map_map]
  set n : ℕ := (max 5 (min 25 ⌊(high - low) / (atr * 0.5)⌋)).toNat with hn
  have hn5 : 5 ≤ n := by
    rw [hn]
    have : (5 : ℤ) ≤ max 5 (min 25 ⌊(high - low) / (atr * 0.5)⌋) := le_max_left _ _
    omega
  have hn0 : ((n : ℚ)) ≠ 0 := by
    have : 0 < n := by omega
    exact_mod_cast Nat.pos_iff_ne_zero.mp this
  refine le_trans (List.sum_le_card_nsmul _ (1.3 * totalVolume / (n : ℚ)) ?_) ?_
  · intro x hx
    simp only [List.mem_map, List.mem_range, Function.comp] at hx
    obtain ⟨i, -, rfl⟩ := hx
    exact adaptiveCluster_volume_le low high totalVolume totalBuyVolume currentPrice
      n i _ _ hlh hV.le hcp (hr _).1 (hr _).2
  · rw [List.length_map, List.length_range, nsmul_eq_mul, mul_comm,
      div_mul_cancel₀ _ hn0]

/-- C4, counterexample to the claim as stated: at low 0, high 100, total
volume 100, ATR 100, current price 50 and all draws one half (multiplier
exactly 1), the cluster volumes sum to 6644/105, below even the loosest
reading 0.7 * totalVolume of the claimed tolerance band. -/
theorem generateAdaptiveClusters_sum_counterexample :
    (((generateAdaptiveClusters 0 100 100 50 50 100 50 (fun _ => 0.5) 0).1).map
      Cluster.volume).sum < 0.7 * 100 := by
  norm_num [generateAdaptiveClusters, adaptiveCluster, List.range_succ,
    List.insertionSort, List.orderedInsert, clusterVolumeGE, max_def, min_def,
    abs_of_nonneg, abs_of_nonpos, show Int.toNat 5 = 5 from rfl]

/-- Average true range as claim C5 words it, over up to period of the MOST
RECENT consecutive candle pairs, for comparison with calculateATR. -/
def specATRMostRecent (candles : List CandleData) (period : ℕ) : ℚ :=
  if candles.length < 2 then 0.001
  else
    let pairs := candles.zip candles.tail
    let recent := pairs.drop (pairs.length - period)
    (recent.map (fun pc => trueRange pc.1 pc.2)).sum / (recent.length : ℚ)

/-- Average true range over all consecutive pairs of the EARLIEST
min(length, period+1) candles, the amended reading of calculateATR. -/
def specATREarliest (candles : List CandleData) (period : ℕ) : ℚ :=
  if candles.length < 2 then 0.001
  else
    let front := candles.take (min candles.length (period + 1))
    let pairs := front.zip front.tail
    ((pairs.map (fun pc => trueRange pc.1 pc.2)).sum /
      ((pairs.map (fun pc => trueRange pc.1 pc.2)).length : ℚ))

theorem take_zip_tail : ∀ (m : ℕ) (l : List CandleData),
    (l.take m).zip (l.take m).tail = (l.zip l.tail).take (m - 1)
  | 0, l => by simp
  | m + 1, [] => by simp
  | m + 1, [x] => by simp
  | 1, x :: y :: xs => by simp
  | m + 2, x :: y :: xs => by
    have ih := take_zip_tail (m + 1) (y :: xs)
    simp only [List.take, List.tail, List.zip_cons_cons] at ih ⊢
    simp only [Nat.add_sub_cancel, List.zip] at ih ⊢
    rw [ih]

/-- C5, amended: for any positive period, calculateATR averages the true
ranges over all consecutive pairs of the EARLIEST min(length, period+1)
candles of the input, not the most recent ones; the 0.001 fallback below two
candles is as claimed. -/
theorem calculateATR_eq_earliest (candles : List CandleData) (period : ℕ)
    (hp : 1 ≤ period) :
    calculateATR candles period = specATREarliest candles period := by
  unfold calculateATR specATREarliest
  split
  · rfl
  · rw [← take_zip_tail (min candles.length (period + 1)) candles]

/-- Sixteen candles: fifteen flat ones followed by one with a raised high, so
only the final pair has a nonzero true range. -/
def flatCandle (t : ℤ) : CandleData :=
  { time := t, open_ := 1, high := 1, low := 1, close := 1, volume := 1,
    buyVolume := 1, sellVolume := 0, delta := 1, clusters := [] }

def spikeCandle : CandleData :=
  { time := 15, open_ := 1, high := 3, low := 1, close := 1, volume := 1,
    buyVolume := 1, sellVolume := 0, delta := 1, clusters := [] }

def atrCandles : List CandleData :=
  ((List.range 15).map (fun i => flatCandle i)) ++ [spikeCandle]

/-- C5, counterexample to the claim as stated: on sixteen candles whose only
true range lies in the final, most recent pair, calculateATR with period 14
averages the fourteen earliest pairs and returns 0, while the average over
the fourteen most recent pairs is 1/7. -/
theorem calculateATR_mostRecent_counterexample :
    calculateATR atrCandles 14 = 0 ∧ specATRMostRecent atrCandles 14 = 1 / 7 ∧
    calculateATR atrCandles 14 ≠ specATRMostRecent atrCandles 14 := by
  norm_num [calculateATR, specATRMostRecent, atrCandles, flatCandle, spikeCandle,
    trueRange, List.range_succ, max_def, abs_of_nonneg, abs_of_nonpos]

theorem calculateATR_eq_earliest_witness :
    (1 : ℕ) ≤ 14 ∧ calculateATR atrCandles 14 = specATREarliest atrCandles 14 :=
  ⟨by norm_num, calculateATR_eq_earliest atrCandles 14 (by norm_num)⟩

theorem updAt_length (f : ProfileLevel → ProfileLevel) :
    ∀ (n : ℕ) (l : List ProfileLevel), (updAt f n l).length = l.length
  | n, [] => by cases n <;> rfl
  | 0, _ :: _ => rfl
  | n + 1, x :: xs => by simp [updAt, updAt_length f n xs]

theorem updAt_volume_sum (cl : Cluster) :
    ∀ (n : ℕ) (l : List ProfileLevel), n < l.length →
      ((updAt (addClusterTo cl) n l).map ProfileLevel.volume).sum =
        (l.map ProfileLevel.volume).sum + cl.volume
  | 0, x :: xs, _ => by simp [updAt, addClusterTo]; ring
  | n + 1, x :: xs, h => by
    simp only [updAt, List.map_cons, List.sum_cons]
    rw [updAt_volume_sum cl n xs (by simpa using h)]
    ring

theorem updAt_mem (f : ProfileLevel → ProfileLevel) :
    ∀ (n : ℕ) (l : List ProfileLevel) (x : ProfileLevel), x ∈ updAt f n l →
      x ∈ l ∨ ∃ y, y ∈ l ∧ x = f y
  | n, [], x, hx => by cases n <;> simp [updAt] at hx
  | 0, a :: xs, x, hx => by
    rcases List.mem_cons.mp hx with h | h
    · exact Or.inr ⟨a, List.mem_cons_self a xs, h⟩
    · exact Or.inl (List.mem_cons_of_mem a h)
  | n + 1, a :: xs, x, hx => by
    rcases List.mem_cons.mp hx with h | h
    · exact Or.inl (h ▸ List.mem_cons_self a xs)
    · rcases updAt_mem f n xs x h with h' | ⟨y, hy, hxy⟩
      · exact Or.inl (List.mem_cons_of_mem a h')
      · exact Or.inr ⟨y, List.mem_cons_of_mem a hy, hxy⟩

/-- Cluster whose bucket index lies inside the profile. -/
def vpInRange (minPrice priceStep : ℚ) (priceLevels : ℕ) (cl : Cluster) : Prop :=
  0 ≤ levelIndex minPrice priceStep cl.price ∧
    levelIndex minPrice priceStep cl.price < (priceLevels : ℤ)

instance (minPrice priceStep : ℚ) (priceLevels : ℕ) :
    DecidablePred (vpInRange minPrice priceStep priceLevels) := fun cl => by
  unfold vpInRange; infer_instance

theorem vpFold_sum (minPrice priceStep : ℚ) (priceLevels : ℕ) :
    ∀ (cls : List Cluster) (prof : List ProfileLevel),
      prof.length = priceLevels →
      (∀ x ∈ prof, 0 ≤ x.volume) →
      (∀ cl ∈ cls, 0 < cl.volume) →
      (cls.foldl (vpAccum minPrice priceStep priceLevels) prof).length = priceLevels ∧
      (∀ x ∈ cls.foldl (vpAccum minPrice priceStep priceLevels) prof, 0 ≤ x.volume) ∧
      ((cls.foldl (vpAccum minPrice priceStep priceLevels) prof).map
          ProfileLevel.volume).sum =
        (prof.map ProfileLevel.volume).sum +
          ((cls.filter (fun cl =>
            decide (vpInRange minPrice priceStep priceLevels cl))).map Cluster.volume).sum
  | [], prof, hlen, hnn, _ => ⟨hlen, hnn, by simp⟩
  | cl :: cls, prof, hlen, hnn, hpos => by
    have hclpos : 0 < cl.volume := hpos cl (List.mem_cons_self _ _)
    have hpos' : ∀ x ∈ cls, 0 < x.volume := fun x hx => hpos x (List.mem_cons_of_mem _ hx)
    by_cases hin : vpInRange minPrice priceStep priceLevels cl
    · have hstep : vpAccum minPrice priceStep priceLevels prof cl =
          updAt (addClusterTo cl) (levelIndex minPrice priceStep cl.price).toNat prof := by
        unfold vpAccum vpInRange at *
        rw [if_pos hin]
      have hidx : (levelIndex minPrice priceStep cl.price).toNat < prof.length := by
        obtain ⟨h0, hlt⟩ := hin
        omega
      have hlen' : (updAt (addClusterTo cl)
          (levelIndex minPrice priceStep cl.price).toNat prof).length = priceLevels := by
        rw [updAt_length]; exact hlen
      have hnn' : ∀ x ∈ updAt (addClusterTo cl)
          (levelIndex minPrice priceStep cl.price).toNat prof, 0 ≤ x.volume := by
        intro x hx
        rcases updAt_mem _ _ _ _ hx with h | ⟨y, hy, rfl⟩
        · exact hnn x h
        · simp only [addClusterTo]
          have := hnn y hy
          linarith
      obtain ⟨ih1, ih2, ih3⟩ := vpFold_sum minPrice priceStep priceLevels cls
        (updAt (addClusterTo cl) (levelIndex minPrice priceStep cl.price).toNat prof)
        hlen' hnn' hpos'
      refine ⟨?_, ?_, ?_⟩
      · rw [List.foldl_cons, hstep]; exact ih1
      · rw [List.foldl_cons, hstep]; exact ih2
      · rw [List.foldl_cons, hstep, ih3,
          updAt_volume_sum cl _ prof hidx, List.filter_cons_of_pos (by simpa using hin),
          List.map_cons, List.sum_cons]
        ring
    · have hstep : vpAccum minPrice priceStep priceLevels prof cl = prof := by
        unfold vpAccum vpInRange at *
        rw [if_neg hin]
      obtain ⟨ih1, ih2, ih3⟩ := vpFold_sum minPrice priceStep priceLevels cls prof
        hlen hnn hpos'
      refine ⟨?_, ?_, ?_⟩
      · rw [List.foldl_cons, hstep]; exact ih1
      · rw [List.foldl_cons, hstep]; exact ih2
      · rw [List.foldl_cons, hstep, ih3,
          List.filter_cons_of_neg (by simpa using hin)]

theorem filter_pos_volume_sum :
    ∀ (l : List ProfileLevel), (∀ x ∈ l, 0 ≤ x.volume) →
      ((l.filter (fun level => decide (level.volume > 0))).map ProfileLevel.volume).sum =
        (l.map ProfileLevel.volume).sum
  | [], _ => rfl
  | x :: xs, h => by
    have hx := h x (List.mem_cons_self _ _)
    have ih := filter_pos_volume_sum xs (fun y hy => h y (List.mem_cons_of_mem _ hy))
    by_cases hpos : x.volume > 0
    · rw [List.filter_cons_of_pos (by simpa using hpos), List.map_cons, List.sum_cons,
        List.map_cons, List.sum_cons, ih]
    · have hzero : x.volume = 0 := le_antisymm (not_lt.mp hpos) hx
      rw [List.filter_cons_of_neg (by simpa using hpos), List.map_cons, List.sum_cons,
        hzero, zero_add, ih]

/-- C6, amended: for a nonempty candle list with positive cluster volumes,
the sum of the returned bucket volumes equals the sum of the volumes of
exactly those clusters whose bucket index floor((price - min)/step) lies in
0..priceLevels-1; out-of-range clusters, in particular one priced exactly at
the maximum, are skipped rather than clamped. -/
theorem generateVolumeProfile_sum_inRange (c : CandleData) (rest : List CandleData)
    (priceLevels : ℕ)
    (hpos : ∀ cl ∈ ((c :: rest).map CandleData.clusters).flatten, 0 < cl.volume) :
    ((generateVolumeProfile (c :: rest) priceLevels).map ProfileLevel.volume).sum =
      (((((c :: rest).map CandleData.clusters).flatten).filter (fun cl =>
        decide (vpInRange (vpMinPrice c rest) (vpStep c rest priceLevels) priceLevels cl))).map
        Cluster.volume).sum := by
  have hinit_len : ((List.range priceLevels).map (fun (i : ℕ) =>
      ({ price := vpMinPrice c rest + (vpStep c rest priceLevels * i) +
           (vpStep c rest priceLevels / 2), volume := 0,
         buyVolume := 0, sellVolume := 0 } : ProfileLevel))).length = priceLevels := by
    rw [List.length_map, List.length_range]
  have hinit_nn : ∀ x ∈ (List.range priceLevels).map (fun (i : ℕ) =>
      ({ price := vpMinPrice c rest + (vpStep c rest priceLevels * i) +
           (vpStep c rest priceLevels / 2), volume := 0,
         buyVolume := 0, sellVolume := 0 } : ProfileLevel)), 0 ≤ x.volume := by
    intro x hx
    simp only [List.mem_map] at hx
    obtain ⟨i, -, rfl⟩ := hx
    simp
  have hinit_sum : (((List.range priceLevels).map (fun (i : ℕ) =>
      ({ price := vpMinPrice c rest + (vpStep c rest priceLevels * i) +
           (vpStep c rest priceLevels / 2), volume := 0,
         buyVolume := 0, sellVolume := 0 } : ProfileLevel))).map ProfileLevel.volume).sum = 0 := by
    apply List.sum_eq_zero
    intro x hx
    simp only [List.map_map, List.mem_map, Function.comp] at hx
    obtain ⟨i, -, rfl⟩ := hx
    rfl
  obtain ⟨-, hnn, hsum⟩ := vpFold_sum (vpMinPrice c rest) (vpStep c rest priceLevels)
    priceLevels (((c :: rest).map CandleData.clusters).flatten) _ hinit_len hinit_nn hpos
  show ((List.filter _ _).map ProfileLevel.volume).sum = _
  rw [filter_pos_volume_sum _ hnn, hsum, hinit_sum, zero_add]

/-- Candle whose single cluster sits exactly at the maximum price of the
profile range. -/
def vpCandle : CandleData :=
  { time := 0, open_ := 1, high := 1, low := 0, close := 1, volume := 5,
    buyVolume := 3, sellVolume := 2, delta := 1,
    clusters := [{ price := 1, volume := 5, buyVolume := 3, sellVolume := 2,
                   delta := 1, aggression := 1/5 }] }

/-- C6, counterexample to the claim as stated: a cluster priced exactly at the
maximum gets bucket index priceLevels, which is not clamped but skipped, so
the returned volume sum is 0 while the input cluster volumes sum to 5. -/
theorem generateVolumeProfile_sum_counterexample :
    ((generateVolumeProfile [vpCandle] 50).map ProfileLevel.volume).sum = 0 ∧
    ((([vpCandle].map CandleData.clusters).flatten.map Cluster.volume).sum = 5) ∧
    ((generateVolumeProfile [vpCandle] 50).map ProfileLevel.volume).sum ≠
      (([vpCandle].map CandleData.clusters).flatten.map Cluster.volume).sum := by
  norm_num [generateVolumeProfile, vpCandle, vpAccum, vpMinPrice, vpMaxPrice, vpStep,
    levelIndex, updAt, List.range_succ]

theorem generateVolumeProfile_sum_inRange_witness :
    ((generateVolumeProfile [vpCandle] 50).map ProfileLevel.volume).sum =
      (((([vpCandle].map CandleData.clusters).flatten).filter (fun cl =>
        decide (vpInRange (vpMinPrice vpCandle []) (vpStep vpCandle [] 50) 50 cl))).map
        Cluster.volume).sum :=
  generateVolumeProfile_sum_inRange vpCandle [] 50 (by
    intro cl hcl
    simp only [vpCandle, List.map_cons, List.map_nil, List.flatten_cons,
      List.flatten_nil, List.append_nil, List.mem_singleton] at hcl
    rw [hcl]
    norm_num)

theorem generateAdaptiveClusters_volume_sum_le_witness :
    (((generateAdaptiveClusters 0 100 100 50 50 100 50 (fun _ => 0.5) 0).1).map
      Cluster.volume).sum ≤ 1.3 * 100 :=
  generateAdaptiveClusters_volume_sum_le 0 100 100 50 50 100 50 (fun _ => 0.5) 0
    (by norm_num) (by norm_num) (by norm_num) (by norm_num) (fun i => by norm_num)

instance : IsTotal OrderBookLevel priceGE := ⟨fun a b => le_total b.price a.price⟩

instance : IsTrans OrderBookLevel priceGE := ⟨fun a b c h1 h2 => le_trans h2 h1⟩

instance : IsTotal OrderBookLevel priceLE := ⟨fun a b => le_total a.price b.price⟩

instance : IsTrans OrderBookLevel priceLE := ⟨fun a b c h1 h2 => le_trans h1 h2⟩

/-- C7, amended: with the actual rangePercent value r, every returned bid
price lies in the band centerPrice*(1 - r/100) .. centerPrice with the bids
sorted by descending price, every ask price lies in centerPrice ..
centerPrice*(1 + r/100) sorted ascending, each side holds at most 50 levels,
and the omitted-argument call uses the declared default 2, not 1.5. -/
theorem filterDepth_spec (orderBook : OrderBookData) (centerPrice rangePercent : ℚ) :
    (∀ level ∈ (filterDepth orderBook centerPrice rangePercent).bids,
       centerPrice * (1 - rangePercent / 100) ≤ level.price ∧
       level.price ≤ centerPrice) ∧
    List.Sorted priceGE (filterDepth orderBook centerPrice rangePercent).bids ∧
    (filterDepth orderBook centerPrice rangePercent).bids.length ≤ 50 ∧
    (∀ level ∈ (filterDepth orderBook centerPrice rangePercent).asks,
       centerPrice ≤ level.price ∧
       level.price ≤ centerPrice * (1 + rangePercent / 100)) ∧
    List.Sorted priceLE (filterDepth orderBook centerPrice rangePercent).asks ∧
    (filterDepth orderBook centerPrice rangePercent).asks.length ≤ 50 ∧
    filterDepthDefault orderBook centerPrice = filterDepth orderBook centerPrice 2 := by
  refine ⟨?_, ?_, ?_, ?_, ?_, ?_, rfl⟩
  · intro level hlev
    have h1 : level ∈ (orderBook.bids.filter (fun level =>
        decide (centerPrice * (1 - rangePercent / 100) ≤ level.price) &&
        decide (level.price ≤ centerPrice))).insertionSort priceGE :=
      List.take_subset _ _ hlev
    rw [List.mem_insertionSort] at h1
    have h2 := (List.mem_filter.mp h1).2
    simp only [Bool.and_eq_true, decide_eq_true_eq] at h2
    exact h2
  · exact (List.sorted_insertionSort priceGE _).sublist (List.take_sublist _ _)
  · simp only [filterDepth, List.length_take]
    exact min_le_left _ _
  · intro level hlev
    have h1 : level ∈ (orderBook.asks.filter (fun level =>
        decide (level.price ≤ centerPrice * (1 + rangePercent / 100)) &&
        decide (centerPrice ≤ level.price))).insertionSort priceLE :=
      List.take_subset _ _ hlev
    rw [List.mem_insertionSort] at h1
    have h2 := (List.mem_filter.mp h1).2
    simp only [Bool.and_eq_true, decide_eq_true_eq] at h2
    exact ⟨h2.2, h2.1⟩
  · exact (List.sorted_insertionSort priceLE _).sublist (List.take_sublist _ _)
  · simp only [filterDepth, List.length_take]
    exact min_le_left _ _

/-- Order book with one bid 1.8 percent below the center price. -/
def cxOrderBook : OrderBookData :=
  { bids := [{ price := 98.2, volume := 1 }], asks := [], lastUpdate := 0 }

/-- C7, counterexample to the claim as stated: the declared default of
rangePercent is 2, not 1.5, so the omitted-argument call keeps a bid at
price 98.2 around center 100 even though 98.2 is below the claimed lower
bound 100 * (1 - 1.5/100) = 98.5. -/
theorem filterDepth_default_counterexample :
    (filterDepthDefault cxOrderBook 100).bids = [{ price := 98.2, volume := 1 }] ∧
    ¬ (∀ level ∈ (filterDepthDefault cxOrderBook 100).bids,
        (100 : ℚ) * (1 - 1.5 / 100) ≤ level.price) := by
  have hbids : (filterDepthDefault cxOrderBook 100).bids =
      [{ price := 98.2, volume := 1 }] := by
    norm_num [filterDepthDefault, filterDepth, cxOrderBook, List.filter,
      List.insertionSort, List.orderedInsert]
  refine ⟨hbids, fun h => ?_⟩
  have := h { price := 98.2, volume := 1 } (by rw [hbids]; exact List.mem_singleton.mpr rfl)
  norm_num at this

theorem backfill_foldl_time_some (interval : String) (sv : ℤ) (r : ℕ → ℚ) :
    ∀ (l : List ℕ) (acc : BackfillAcc) (t : ℤ), acc.time = some t →
      (l.foldl (fun a _ => backfillStep interval (some sv) r a) acc).time =
        some (t + l.length * sv)
  | [], acc, t, h => by simpa using h
  | x :: xs, acc, t, h => by
    rw [List.foldl_cons]
    rw [backfill_foldl_time_some interval sv r xs _ (t + sv)
      (by simp only [backfillStep, h, jsAddStep])]
    simp only [List.length_cons]
    congr 1
    push_cast
    ring

theorem backfill_foldl_time_none (interval : String) (s : Option ℤ) (r : ℕ → ℚ) :
    ∀ (l : List ℕ) (acc : BackfillAcc), acc.time = none →
      (l.foldl (fun a _ => backfillStep interval s r a) acc).time = none
  | [], _, h => h
  | x :: xs, acc, h => by
    rw [List.foldl_cons]
    apply backfill_foldl_time_none interval s r xs
    simp only [backfillStep, h]
    cases s <;> rfl

/-- C10, amended: whenever the interval string yields a numeric step, the
backfill starts count interval steps in the past and walks the cursor
forward once per candle exactly back to its pre-call value; but an interval
string whose recognized unit letter has no leading integer gives the
JavaScript code a NaN step, the call still returns normally, and the
generator's currentTime is left NaN rather than its pre-call value. -/
theorem generateHistoricalCandles_time :
    (∀ (st : GenState) (count : ℕ) (interval : String) (s : ℤ) (r : ℕ → ℚ) (k : ℕ),
       getIntervalInSeconds interval = some s →
       (generateHistoricalCandles st count interval r k).currentTime =
         some st.currentTime) ∧
    (∀ (st : GenState) (count : ℕ) (interval : String) (r : ℕ → ℚ) (k : ℕ),
       getIntervalInSeconds interval = none →
       (generateHistoricalCandles st count interval r k).currentTime = none) := by
  constructor
  · intro st count interval s r k h
    unfold generateHistoricalCandles
    dsimp only
    rw [h]
    rw [backfill_foldl_time_some interval s r _ _ (st.currentTime - count * s) rfl]
    rw [List.length_range]
    congr 1
    ring
  · intro st count interval r k h
    unfold generateHistoricalCandles
    dsimp only
    rw [h]
    exact backfill_foldl_time_none interval none r _ _ rfl

/-- Concrete generator state used in the backfill counterexample and
witness. -/
def bfGenState : GenState :=
  { currentPrice := 100, currentTime := 0, priceHistory := List.replicate 20 100,
    historicalCandles := [], engine := ⟨fun _ => none, fun _ => none⟩ }

/-- C10, counterexample to the claim as stated: at interval "m" parseInt has
no digits to read and returns NaN, so the step, the starting offset and the
final cursor are all NaN; the call returns normally and the generator's
currentTime ends as NaN, not its pre-call value. -/
theorem generateHistoricalCandles_nan_counterexample :
    (generateHistoricalCandles bfGenState 3 "m" (fun _ => 0.5) 0).currentTime = none ∧
    (generateHistoricalCandles bfGenState 3 "m" (fun _ => 0.5) 0).currentTime ≠
      some bfGenState.currentTime := by
  refine ⟨rfl, ?_⟩
  rw [show (generateHistoricalCandles bfGenState 3 "m"
    (fun _ => 0.5) 0).currentTime = none from rfl]
  simp

theorem generateHistoricalCandles_time_witness :
    getIntervalInSeconds "1m" = some 60 ∧
    (generateHistoricalCandles bfGenState 3 "1m" (fun _ => 0.5) 0).currentTime =
      some bfGenState.currentTime :=
  ⟨rfl, generateHistoricalCandles_time.1 bfGenState 3 "1m" 60 (fun _ => 0.5) 0 rfl⟩


theorem shouldRefresh_none (e : EngineState) (sym : String) (p : ℚ)
    (h : e.lastProcessedPrice sym = none) :
    shouldRefreshClusters e sym p = (true, setLastPrice e sym p) := by
  unfold shouldRefreshClusters
  rw [h]

theorem shouldRefresh_zero (e : EngineState) (sym : String) (P p : ℚ)
    (h : e.lastProcessedPrice sym = some P) (hP : P = 0) :
    shouldRefreshClusters e sym p = (true, setLastPrice e sym p) := by
  unfold shouldRefreshClusters
  rw [h]
  dsimp only
  rw [if_pos hP]

theorem shouldRefresh_accept (e : EngineState) (sym : String) (P p : ℚ)
    (h : e.lastProcessedPrice sym = some P) (hP : ¬ P = 0)
    (hgt : |p - P| / P > PRICE_CHANGE_THRESHOLD) :
    shouldRefreshClusters e sym p = (true, setLastPrice e sym p) := by
  unfold shouldRefreshClusters
  rw [h]
  dsimp only
  rw [if_neg hP, if_pos hgt]

theorem shouldRefresh_reject (e : EngineState) (sym : String) (P p : ℚ)
    (h : e.lastProcessedPrice sym = some P) (hP : ¬ P = 0)
    (hle : ¬ (|p - P| / P > PRICE_CHANGE_THRESHOLD)) :
    shouldRefreshClusters e sym p = (false, e) := by
  unfold shouldRefreshClusters
  rw [h]
  dsimp only
  rw [if_neg hP, if_neg hle]

theorem shouldRefresh_false_eq (e : EngineState) (sym : String) (p : ℚ)
    (h : (shouldRefreshClusters e sym p).1 = false) :
    (shouldRefreshClusters e sym p).2 = e := by
  cases hm : e.lastProcessedPrice sym with
  | none => rw [shouldRefresh_none e sym p hm] at h; simp at h
  | some P =>
    by_cases hP : P = 0
    · rw [shouldRefresh_zero e sym P p hm hP] at h; simp at h
    · by_cases hgt : |p - P| / P > PRICE_CHANGE_THRESHOLD
      · rw [shouldRefresh_accept e sym P p hm hP hgt] at h; simp at h
      · rw [shouldRefresh_reject e sym P p hm hP hgt]

theorem simulate_price_ge_one (st : GenState) (r : ℕ → ℚ) (k : ℕ) :
    (1 : ℚ) ≤ (simulatePriceMovement st r k).1 :=
  le_max_right _ _

/-- C8: when the significance gate rejects a tick, generateRealtimeUpdate
returns no candle and leaves the rolling candle window, the ATR cache, the
gate's own price cache and the time cursor untouched; and from a fresh gate
cache, two immediate ticks whose second price differs from the first by less
than 0.05 percent produce a candle on tick 1 and none on tick 2. -/
theorem generateRealtimeUpdate_gate_frame :
    (∀ (st : GenState) (interval : String) (r : ℕ → ℚ) (k : ℕ),
       (shouldRefreshClusters (simulatePriceMovement st r k).2.1.engine "BTCUSDT"
         (simulatePriceMovement st r k).1).1 = false →
       (generateRealtimeUpdate st interval r k).1 = none ∧
       (generateRealtimeUpdate st interval r k).2.1.historicalCandles =
         st.historicalCandles ∧
       (generateRealtimeUpdate st interval r k).2.1.engine.atrCache =
         st.engine.atrCache ∧
       (generateRealtimeUpdate st interval r k).2.1.engine.lastProcessedPrice =
         st.engine.lastProcessedPrice ∧
       (generateRealtimeUpdate st interval r k).2.1.currentTime = st.currentTime) ∧
    (∀ (st : GenState) (i1 i2 : String) (r : ℕ → ℚ) (k : ℕ),
       st.engine.lastProcessedPrice "BTCUSDT" = none →
       |(simulatePriceMovement (generateRealtimeUpdate st i1 r k).2.1 r
           (generateRealtimeUpdate st i1 r k).2.2).1 -
         (simulatePriceMovement st r k).1| / (simulatePriceMovement st r k).1 <
           0.0005 →
       ((generateRealtimeUpdate st i1 r k).1).isSome = true ∧
       (generateRealtimeUpdate (generateRealtimeUpdate st i1 r k).2.1 i2 r
         (generateRealtimeUpdate st i1 r k).2.2).1 = none) := by
  constructor
  · intro st interval r k h
    have hgate := shouldRefresh_false_eq _ _ _ h
    refine ⟨?_, ?_, ?_, ?_, ?_⟩ <;>
      simp only [generateRealtimeUpdate, h, Bool.false_eq_true, if_false] <;>
      first
      | rfl
      | (rw [hgate]; exact rfl)
  · intro st i1 i2 r k hnone hclose
    have hp1 : (1 : ℚ) ≤ (simulatePriceMovement st r k).1 := simulate_price_ge_one st r k
    have hgate1 : shouldRefreshClusters (simulatePriceMovement st r k).2.1.engine
        "BTCUSDT" (simulatePriceMovement st r k).1 =
        (true, setLastPrice (simulatePriceMovement st r k).2.1.engine "BTCUSDT"
          (simulatePriceMovement st r k).1) :=
      shouldRefresh_none _ _ _ hnone
    set A := generateRealtimeUpdate st i1 r k with hA
    have hfirst_some : (A.1).isSome = true := by
      rw [hA]
      simp only [generateRealtimeUpdate, hgate1, if_true, Option.isSome_some]
    refine ⟨hfirst_some, ?_⟩
    have hafter : A.2.1.engine.lastProcessedPrice "BTCUSDT" =
        some (simulatePriceMovement st r k).1 := by
      rw [hA]
      simp only [generateRealtimeUpdate, hgate1, if_true, generateSingleCandle,
        updateATRCache, setLastPrice]
    have hP0 : ¬ (simulatePriceMovement st r k).1 = 0 := by
      intro h0
      rw [h0] at hp1
      norm_num at hp1
    have hnotgt : ¬ (|(simulatePriceMovement A.2.1 r A.2.2).1 -
        (simulatePriceMovement st r k).1| /
          (simulatePriceMovement st r k).1 > PRICE_CHANGE_THRESHOLD) := by
      rw [show PRICE_CHANGE_THRESHOLD = 0.0005 from rfl]
      exact not_lt.mpr (le_of_lt hclose)
    have hgate2 : shouldRefreshClusters
        (simulatePriceMovement A.2.1 r A.2.2).2.1.engine "BTCUSDT"
        (simulatePriceMovement A.2.1 r A.2.2).1 =
        (false, (simulatePriceMovement A.2.1 r A.2.2).2.1.engine) := by
      refine shouldRefresh_reject _ _ ((simulatePriceMovement st r k).1) _ ?_ hP0 hnotgt
      exact hafter
    simp only [generateRealtimeUpdate, hgate2, Bool.false_eq_true, if_false]

/-- Concrete generator state used to witness the two-tick scenario. -/
def rtGenState : GenState :=
  { currentPrice := 100, currentTime := 0, priceHistory := List.replicate 20 100,
    historicalCandles := [], engine := ⟨fun _ => none, fun _ => none⟩ }

theorem rt_p1_eval : (simulatePriceMovement rtGenState (fun _ => 0.5) 0).1 = 100 := by
  norm_num [simulatePriceMovement, rtGenState, List.replicate, max_def]

theorem rt_hist_eval :
    (simulatePriceMovement rtGenState (fun _ => 0.5) 0).2.1.priceHistory =
      List.replicate 20 100 ++ [100] := by
  have h1 := rt_p1_eval
  simp only [simulatePriceMovement, updateCurrentPrice, rtGenState] at h1 ⊢
  norm_num [List.replicate, max_def] at h1 ⊢

theorem rtA_price :
    (generateRealtimeUpdate rtGenState "1m" (fun _ => 0.5) 0).2.1.currentPrice = 100 := by
  rw [show (generateRealtimeUpdate rtGenState "1m" (fun _ => 0.5) 0).2.1.currentPrice =
    (simulatePriceMovement rtGenState (fun _ => 0.5) 0).1 from rfl]
  exact rt_p1_eval

theorem rtA_hist :
    (generateRealtimeUpdate rtGenState "1m" (fun _ => 0.5) 0).2.1.priceHistory =
      List.replicate 20 100 ++ [100] := by
  rw [show (generateRealtimeUpdate rtGenState "1m" (fun _ => 0.5) 0).2.1.priceHistory =
    (simulatePriceMovement rtGenState (fun _ => 0.5) 0).2.1.priceHistory from rfl]
  exact rt_hist_eval

theorem rt_p2_eval :
    (simulatePriceMovement (generateRealtimeUpdate rtGenState "1m" (fun _ => 0.5) 0).2.1
      (fun _ => 0.5) (generateRealtimeUpdate rtGenState "1m" (fun _ => 0.5) 0).2.2).1 = 100 := by
  simp only [simulatePriceMovement]
  rw [rtA_price, rtA_hist]
  norm_num [List.replicate, max_def]

theorem generateRealtimeUpdate_gate_frame_witness :
    ((generateRealtimeUpdate rtGenState "1m" (fun _ => 0.5) 0).1).isSome = true ∧
    (generateRealtimeUpdate (generateRealtimeUpdate rtGenState "1m" (fun _ => 0.5) 0).2.1
      "1m" (fun _ => 0.5) (generateRealtimeUpdate rtGenState "1m" (fun _ => 0.5) 0).2.2).1 =
      none :=
  generateRealtimeUpdate_gate_frame.2 rtGenState "1m" "1m" (fun _ => 0.5) 0 rfl (by
    rw [rt_p2_eval, rt_p1_eval]
    norm_num)

/-- Concrete candle and order book used in the tick counterexample. -/
def c1Candle : CandleData :=
  { time := 0, open_ := 1, high := 1, low := 1, close := 1, volume := 1,
    buyVolume := 1, sellVolume := 0, delta := 1, clusters := [] }

def c1OrderBook : OrderBookData := { bids := [], asks := [], lastUpdate := 0 }

/-- C1, counterexample to the claim as stated: with a candle produced and the
candle write failing, the tick broadcasts nothing at all, so the
candle_update frame is not delivered to the key's subscribers. -/
theorem tickUpdate_failure_counterexample :
    (tickUpdate "BTCUSDT" "1m" true (some c1Candle) c1OrderBook true false).frames = [] ∧
    ¬ Frame.candleUpdate "BTCUSDT" "1m" c1Candle ∈
        (tickUpdate "BTCUSDT" "1m" true (some c1Candle) c1OrderBook true false).frames :=
  ⟨rfl, by simp [tickUpdate]⟩

/-- C1, amended: a StorageError on either persistence write aborts the rest
of that tick, so neither the candle_update nor the orderbook_update frame is
broadcast; the failure is logged exactly once, no error frame is ever sent to
a client, and when both writes succeed the two frames are broadcast in
order. -/
theorem tickUpdate_storage_failure (symbol interval : String) (c : CandleData)
    (orderBookData : OrderBookData) :
    (∀ f2 : Bool, (tickUpdate symbol interval true (some c) orderBookData true f2).frames = [] ∧
       (tickUpdate symbol interval true (some c) orderBookData true f2).storageErrorsLogged = 1) ∧
    ((tickUpdate symbol interval true (some c) orderBookData false true).frames = [] ∧
     (tickUpdate symbol interval true (some c) orderBookData false true).storageErrorsLogged = 1) ∧
    (tickUpdate symbol interval true (some c) orderBookData false false).frames =
      [Frame.candleUpdate symbol interval c, Frame.orderbookUpdate symbol orderBookData] ∧
    (∀ (subscribed : Bool) (candleUpdate : Option CandleData) (f1 f2 : Bool),
       (tickUpdate symbol interval subscribed candleUpdate orderBookData
         f1 f2).errorFramesSent = 0) := by
  refine ⟨fun f2 => ?_, ⟨rfl, rfl⟩, rfl, ?_⟩
  · cases f2 <;> exact ⟨rfl, rfl⟩
  · intro subscribed candleUpdate f1 f2
    cases subscribed <;> cases candleUpdate <;> cases f1 <;> cases f2 <;> rfl


theorem lookup_none_keys {β : Type} :
    ∀ (l : List (String × β)) (K : String), l.lookup K = none →
      ∀ p ∈ l, p.1 ≠ K
  | [], _, _, p, hp => by simp at hp
  | (a, b) :: t, K, h, p, hp => by
    simp only [List.lookup] at h
    cases hab : (K == a) with
    | true => rw [hab] at h; simp at h
    | false =>
      rw [hab] at h
      rcases List.mem_cons.mp hp with rfl | hmem
      · exact fun hh => by subst hh; simp at hab
      · exact lookup_none_keys t K h p hmem

theorem lookup_append_right {β : Type} :
    ∀ (l : List (String × β)) (K : String) (v : β), l.lookup K = none →
      (l ++ [(K, v)]).lookup K = some v
  | [], K, v, _ => by simp [List.lookup]
  | (a, b) :: t, K, v, h => by
    simp only [List.lookup] at h ⊢
    cases hab : (K == a) with
    | true => rw [hab] at h; simp at h
    | false =>
      rw [hab] at h
      simp only [List.cons_append, List.lookup, hab]
      exact lookup_append_right t K v h

theorem lookup_mem {β : Type} :
    ∀ (l : List (String × β)) (K : String) (v : β), l.lookup K = some v →
      (K, v) ∈ l
  | [], K, v, h => by simp [List.lookup] at h
  | (a, b) :: t, K, v, h => by
    simp only [List.lookup] at h
    cases hab : (K == a) with
    | true =>
      rw [hab] at h
      simp only [Option.some_inj] at h
      have haK : K = a := by simpa using hab
      rw [haK, h]
      exact List.mem_cons_self _ _
    | false =>
      rw [hab] at h
      exact List.mem_cons_of_mem _ (lookup_mem t K v h)

theorem lookup_append_singleton_ne {β : Type} :
    ∀ (l : List (String × β)) (k K : String) (v : β), k ≠ K →
      (l ++ [(k, v)]).lookup K = l.lookup K
  | [], k, K, v, hne => by
    simp only [List.nil_append, List.lookup, List.lookup_nil]
    rw [show (K == k) = false by simpa using Ne.symm hne]
  | (a, b) :: t, k, K, v, hne => by
    simp only [List.cons_append, List.lookup]
    cases hab : (K == a) with
    | true => rfl
    | false => exact lookup_append_singleton_ne t k K v hne

theorem map_keep_of_ne {β : Type} (K : String) (w : β) :
    ∀ (l : List (String × β)), (∀ p ∈ l, p.1 ≠ K) →
      (l.map (fun p => if p.1 = K then (K, w) else p)) = l
  | [], _ => rfl
  | (a, b) :: t, h => by
    have ha : a ≠ K := h (a, b) (List.mem_cons_self _ _)
    simp only [List.map_cons, if_neg ha]
    rw [map_keep_of_ne K w t (fun p hp => h p (List.mem_cons_of_mem _ hp))]

theorem setAssoc_of_lookup_none {β : Type} (l : List (String × β)) (K : String)
    (v : β) (h : l.lookup K = none) : setAssoc l K v = l ++ [(K, v)] := by
  unfold setAssoc
  rw [h]
  simp

theorem setAssoc_append_entry {β : Type} (l : List (String × β)) (K : String)
    (v w : β) (h : l.lookup K = none) :
    setAssoc (l ++ [(K, v)]) K w = l ++ [(K, w)] := by
  unfold setAssoc
  rw [lookup_append_right l K v h]
  simp only [Option.isSome_some, if_true, List.map_append, List.map_cons,
    if_pos rfl, List.map_nil]
  rw [map_keep_of_ne K w l (lookup_none_keys l K h)]

theorem lookup_map_set_ne {β : Type} (k K : String) (v : β) (hne : k ≠ K) :
    ∀ (l : List (String × β)),
      (l.map (fun p => if p.1 = k then (k, v) else p)).lookup K = l.lookup K
  | [] => rfl
  | (a, b) :: t => by
    by_cases hak : a = k
    · subst hak
      simp only [List.map_cons, if_true]
      simp only [List.lookup, show (K == a) = false by simpa using Ne.symm hne]
      exact lookup_map_set_ne a K v hne t
    · simp only [List.map_cons]
      rw [if_neg (show ¬ (a, b).1 = k from hak)]
      simp only [List.lookup]
      cases hab : (K == a) with
      | true => rfl
      | false => exact lookup_map_set_ne k K v hne t

theorem lookup_setAssoc_ne {β : Type} (l : List (String × β)) (k K : String)
    (v : β) (hne : k ≠ K) : (setAssoc l k v).lookup K = l.lookup K := by
  unfold setAssoc
  by_cases hs : (l.lookup k).isSome
  · rw [if_pos hs]
    exact lookup_map_set_ne k K v hne l
  · rw [if_neg hs]
    exact lookup_append_singleton_ne l k K v hne

theorem lookup_delAssoc_self {β : Type} (K : String) :
    ∀ (l : List (String × β)), (delAssoc l K).lookup K = none
  | [] => rfl
  | (a, b) :: t => by
    simp only [delAssoc, List.filter_cons]
    by_cases haK : a = K
    · rw [show (decide ((a, b).1 ≠ K)) = false by simp [haK]]
      rw [if_neg (by simp)]
      exact lookup_delAssoc_self K t
    · rw [show (decide ((a, b).1 ≠ K)) = true by simp [haK]]
      rw [if_pos rfl]
      simp only [List.lookup,
        show (K == a) = false by simpa using fun hh => haK hh.symm]
      exact lookup_delAssoc_self K t

theorem lookup_delAssoc_ne {β : Type} (k K : String) (hne : k ≠ K) :
    ∀ (l : List (String × β)), (delAssoc l k).lookup K = l.lookup K
  | [] => rfl
  | (a, b) :: t => by
    simp only [delAssoc, List.filter_cons]
    by_cases hak : a = k
    · rw [show (decide ((a, b).1 ≠ k)) = false by simp [hak]]
      rw [if_neg (by simp)]
      simp only [List.lookup,
        show (K == a) = false by simpa using fun hh : K = a => hne ((hh.trans hak).symm)]
      exact lookup_delAssoc_ne k K hne t
    · rw [show (decide ((a, b).1 ≠ k)) = true by simp [hak]]
      rw [if_pos rfl]
      simp only [List.lookup]
      cases hab : (K == a) with
      | true => rfl
      | false => exact lookup_delAssoc_ne k K hne t

theorem subscribe_fresh (symbol interval : String) (ws : Conn) (st : HubState)
    (h1 : st.subscriptions.lookup (symbol ++ "_" ++ interval) = none) :
    subscribeToSymbol symbol interval ws st =
      { subscriptions := st.subscriptions ++ [(symbol ++ "_" ++ interval, [ws])]
        updateIntervals := setAssoc st.updateIntervals (symbol ++ "_" ++ interval)
          st.nextTimer
        activeTimers := st.activeTimers ++ [(symbol ++ "_" ++ interval, st.nextTimer)]
        nextTimer := st.nextTimer + 1 } := by
  simp only [subscribeToSymbol]
  rw [h1]
  simp only [Option.isSome_none, Bool.false_eq_true, if_false]
  rw [lookup_append_right st.subscriptions _ [] h1]
  simp only [Option.getD_some, List.not_mem_nil, if_false, List.nil_append]
  rw [setAssoc_append_entry st.subscriptions _ [] [ws] h1]
  rw [if_pos (by simp : ([ws] : List Conn).length = 1)]
  simp only [startDataStream]

/-- Invariant maintained while removeConnection processes keys other than K:
K still has exactly the subscriber ws, its recorded handle tid, exactly one
scheduled timer, and no other key records the handle tid. -/
def remInv (ws : Conn) (K : String) (tid : ℕ) (s : HubState) : Prop :=
  s.subscriptions.lookup K = some [ws] ∧
  s.updateIntervals.lookup K = some tid ∧
  timersFor s K = [(K, tid)] ∧
  (∀ p ∈ s.updateIntervals, p.1 ≠ K → p.2 ≠ tid)

theorem removeConnStep_preserves (ws : Conn) (K : String) (tid : ℕ) (k : String)
    (hk : k ≠ K) (s : HubState) (h : remInv ws K tid s) :
    remInv ws K tid (removeConnStep ws s k) := by
  obtain ⟨h1, h2, h3, h4⟩ := h
  unfold removeConnStep
  cases hl : s.subscriptions.lookup k with
  | none => exact ⟨h1, h2, h3, h4⟩
  | some clients =>
    dsimp only
    by_cases hemp : (clients.erase ws).length = 0
    · rw [if_pos hemp]
      unfold stopDataStream
      dsimp only
      cases hti : s.updateIntervals.lookup k with
      | none =>
        dsimp only
        refine ⟨?_, h2, h3, h4⟩
        rw [lookup_delAssoc_ne k K hk, lookup_setAssoc_ne _ k K _ hk]
        exact h1
      | some tid2 =>
        dsimp only
        have htid2 : tid2 ≠ tid :=
          h4 (k, tid2) (lookup_mem _ _ _ hti) hk
        refine ⟨?_, ?_, ?_, ?_⟩
        · rw [lookup_delAssoc_ne k K hk, lookup_setAssoc_ne _ k K _ hk]
          exact h1
        · rw [lookup_delAssoc_ne k K hk]
          exact h2
        · show (List.filter _ (List.filter _ s.activeTimers)) = _
          rw [List.filter_comm]
          have h3' : List.filter (fun t => decide (t.1 = K)) s.activeTimers =
              [(K, tid)] := h3
          rw [h3']
          have htid' : tid ≠ tid2 := Ne.symm htid2
          simp [htid']
        · intro p hp hpk
          exact h4 p (List.mem_of_mem_filter hp) hpk
    · rw [if_neg hemp]
      refine ⟨?_, h2, h3, h4⟩
      rw [lookup_setAssoc_ne _ k K _ hk]
      exact h1

theorem removeConnStep_nextTimer (ws : Conn) (s : HubState) (k : String) :
    (removeConnStep ws s k).nextTimer = s.nextTimer := by
  unfold removeConnStep
  cases hl : s.subscriptions.lookup k with
  | none => rfl
  | some clients =>
    dsimp only
    by_cases hemp : (clients.erase ws).length = 0
    · rw [if_pos hemp]
      unfold stopDataStream
      dsimp only
      cases s.updateIntervals.lookup k <;> rfl
    · rw [if_neg hemp]

theorem foldl_removeConnStep_preserves (ws : Conn) (K : String) (tid : ℕ) :
    ∀ (ks : List String) (s : HubState), (∀ k ∈ ks, k ≠ K) → remInv ws K tid s →
      remInv ws K tid (ks.foldl (removeConnStep ws) s)
  | [], _, _, h => h
  | k :: ks, s, hks, h => by
    rw [List.foldl_cons]
    exact foldl_removeConnStep_preserves ws K tid ks _
      (fun x hx => hks x (List.mem_cons_of_mem _ hx))
      (removeConnStep_preserves ws K tid k (hks k (List.mem_cons_self _ _)) s h)

theorem foldl_removeConnStep_nextTimer (ws : Conn) :
    ∀ (ks : List String) (s : HubState),
      (ks.foldl (removeConnStep ws) s).nextTimer = s.nextTimer
  | [], _ => rfl
  | k :: ks, s => by
    rw [List.foldl_cons, foldl_removeConnStep_nextTimer ws ks _,
      removeConnStep_nextTimer]

theorem removeConnStep_last (ws : Conn) (K : String) (tid : ℕ) (s : HubState)
    (h : remInv ws K tid s) :
    (removeConnStep ws s K).subscriptions.lookup K = none ∧
    (removeConnStep ws s K).updateIntervals.lookup K = none ∧
    timersFor (removeConnStep ws s K) K = [] := by
  obtain ⟨h1, h2, h3, h4⟩ := h
  unfold removeConnStep
  rw [h1]
  dsimp only
  rw [show ([ws].erase ws) = ([] : List Conn) by simp]
  rw [if_pos (show ([] : List Conn).length = 0 from rfl)]
  unfold stopDataStream
  dsimp only
  rw [h2]
  dsimp only
  refine ⟨lookup_delAssoc_self K _, lookup_delAssoc_self K _, ?_⟩
  show (List.filter _ (List.filter _ s.activeTimers)) = _
  rw [List.filter_comm]
  have h3' : List.filter (fun t => decide (t.1 = K)) s.activeTimers = [(K, tid)] := h3
  rw [h3']
  simp

/-- C9: from a state where the key has no registry entry, no recorded handle
and no scheduled timer, and all recorded handles predate the allocator
counter: subscribing the first connection schedules exactly one timer for the
key; removing that last connection stops the loop, leaving no timer for the
key and clearing both the registry entry and the recorded handle; and
re-subscribing afterwards schedules exactly one fresh timer. -/
theorem subscription_lifecycle (symbol interval : String) (ws ws2 : Conn)
    (st : HubState)
    (h1 : st.subscriptions.lookup (symbol ++ "_" ++ interval) = none)
    (h2 : st.updateIntervals.lookup (symbol ++ "_" ++ interval) = none)
    (h3 : ∀ t ∈ st.activeTimers, t.1 ≠ symbol ++ "_" ++ interval)
    (h4 : ∀ p ∈ st.updateIntervals, p.2 < st.nextTimer) :
    timersFor (subscribeToSymbol symbol interval ws st) (symbol ++ "_" ++ interval) =
      [(symbol ++ "_" ++ interval, st.nextTimer)] ∧
    timersFor (removeConnection ws (subscribeToSymbol symbol interval ws st))
      (symbol ++ "_" ++ interval) = [] ∧
    (removeConnection ws (subscribeToSymbol symbol interval ws st)).subscriptions.lookup
      (symbol ++ "_" ++ interval) = none ∧
    (removeConnection ws (subscribeToSymbol symbol interval ws st)).updateIntervals.lookup
      (symbol ++ "_" ++ interval) = none ∧
    timersFor (subscribeToSymbol symbol interval ws2
        (removeConnection ws (subscribeToSymbol symbol interval ws st)))
      (symbol ++ "_" ++ interval) =
      [(symbol ++ "_" ++ interval,
        (removeConnection ws (subscribeToSymbol symbol interval ws st)).nextTimer)] := by
  have hsub := subscribe_fresh symbol interval ws st h1
  have hA : timersFor (subscribeToSymbol symbol interval ws st)
      (symbol ++ "_" ++ interval) = [(symbol ++ "_" ++ interval, st.nextTimer)] := by
    rw [hsub]
    unfold timersFor
    dsimp only
    rw [List.filter_append]
    rw [show List.filter (fun t => decide (t.1 = symbol ++ "_" ++ interval))
        st.activeTimers = [] from List.filter_eq_nil_iff.mpr (by
          intro t ht
          simpa using h3 t ht)]
    simp
  have hInv : remInv ws (symbol ++ "_" ++ interval) st.nextTimer
      (subscribeToSymbol symbol interval ws st) := by
    refine ⟨?_, ?_, hA, ?_⟩
    · rw [hsub]
      exact lookup_append_right _ _ _ h1
    · rw [hsub]
      dsimp only
      rw [setAssoc_of_lookup_none _ _ _ h2]
      exact lookup_append_right _ _ _ h2
    · rw [hsub]
      dsimp only
      rw [setAssoc_of_lookup_none _ _ _ h2]
      intro p hp hpk
      rcases List.mem_append.mp hp with hold | hnew
      · exact Nat.ne_of_lt (h4 p hold)
      · simp only [List.mem_singleton] at hnew
        exact absurd (by rw [hnew]) hpk
  have hkeys : (subscribeToSymbol symbol interval ws st).subscriptions.map
      (fun p => p.1) = st.subscriptions.map (fun p => p.1) ++
        [symbol ++ "_" ++ interval] := by
    rw [hsub]
    simp
  have hrem : removeConnection ws (subscribeToSymbol symbol interval ws st) =
      removeConnStep ws ((st.subscriptions.map (fun p => p.1)).foldl
        (removeConnStep ws) (subscribeToSymbol symbol interval ws st))
        (symbol ++ "_" ++ interval) := by
    unfold removeConnection
    rw [show (subscribeToSymbol symbol interval ws st).subscriptions.map
      (fun p => p.1) = st.subscriptions.map (fun p => p.1) ++
        [symbol ++ "_" ++ interval] from hkeys]
    rw [List.foldl_append, List.foldl_cons, List.foldl_nil]
  have hpre : remInv ws (symbol ++ "_" ++ interval) st.nextTimer
      ((st.subscriptions.map (fun p => p.1)).foldl (removeConnStep ws)
        (subscribeToSymbol symbol interval ws st)) := by
    refine foldl_removeConnStep_preserves ws _ _ _ _ ?_ hInv
    intro k hk
    rcases List.mem_map.mp hk with ⟨p, hp, rfl⟩
    exact lookup_none_keys st.subscriptions _ h1 p hp
  have hlast := removeConnStep_last ws (symbol ++ "_" ++ interval) st.nextTimer _ hpre
  have hB : timersFor (removeConnection ws (subscribeToSymbol symbol interval ws st))
      (symbol ++ "_" ++ interval) = [] := by
    rw [hrem]
    exact hlast.2.2
  have hC : (removeConnection ws (subscribeToSymbol symbol interval
      ws st)).subscriptions.lookup (symbol ++ "_" ++ interval) = none := by
    rw [hrem]
    exact hlast.1
  have hD : (removeConnection ws (subscribeToSymbol symbol interval
      ws st)).updateIntervals.lookup (symbol ++ "_" ++ interval) = none := by
    rw [hrem]
    exact hlast.2.1
  refine ⟨hA, hB, hC, hD, ?_⟩
  have hsub2 := subscribe_fresh symbol interval ws2
    (removeConnection ws (subscribeToSymbol symbol interval ws st)) hC
  rw [hsub2]
  unfold timersFor
  dsimp only
  rw [List.filter_append]
  rw [show List.filter (fun t => decide (t.1 = symbol ++ "_" ++ interval))
      (removeConnection ws (subscribeToSymbol symbol interval ws st)).activeTimers =
      [] from hB]
  simp

theorem subscription_lifecycle_witness :
    timersFor (subscribeToSymbol "BTCUSDT" "1m" 0 ⟨[], [], [], 0⟩)
      ("BTCUSDT" ++ "_" ++ "1m") = [("BTCUSDT" ++ "_" ++ "1m", 0)] ∧
    timersFor (removeConnection 0 (subscribeToSymbol "BTCUSDT" "1m" 0 ⟨[], [], [], 0⟩))
      ("BTCUSDT" ++ "_" ++ "1m") = [] ∧
    (removeConnection 0 (subscribeToSymbol "BTCUSDT" "1m" 0
      ⟨[], [], [], 0⟩)).subscriptions.lookup ("BTCUSDT" ++ "_" ++ "1m") = none ∧
    (removeConnection 0 (subscribeToSymbol "BTCUSDT" "1m" 0
      ⟨[], [], [], 0⟩)).updateIntervals.lookup ("BTCUSDT" ++ "_" ++ "1m") = none ∧
    timersFor (subscribeToSymbol "BTCUSDT" "1m" 1
        (removeConnection 0 (subscribeToSymbol "BTCUSDT" "1m" 0 ⟨[], [], [], 0⟩)))
      ("BTCUSDT" ++ "_" ++ "1m") =
      [("BTCUSDT" ++ "_" ++ "1m",
        (removeConnection 0 (subscribeToSymbol "BTCUSDT" "1m" 0
          ⟨[], [], [], 0⟩)).nextTimer)] :=
  subscription_lifecycle "BTCUSDT" "1m" 0 1 ⟨[], [], [], 0⟩ rfl rfl
    (by intro t ht; simp at ht) (by intro p hp; simp at hp)


end MarketSim





